import Mathlib

/-!
Shallow embedding of the live collaborative session subsystem of the
Session-Maps repository: client-side path aggregation, route archival on
session end, the WebSocket reconnect state machine, the signal-lost presence
sweep, the server-message handler, and the GPS watch lifecycle.  Every
definition is translated from the TypeScript source (src/unnamed/part_007 and
src/unnamed/part_005 unless noted).
-/

set_option autoImplicit false

namespace SessionMaps

/-- A path sample as stored in memberPaths: the pair (lng, lat), matching the
TypeScript tuple [lng, lat]. -/
abbrev Point := ℚ × ℚ

/-- The minimum-displacement threshold 0.00005 geographic degrees used by the
path aggregator in updateMemberMarker. -/
def PATH_THRESHOLD : ℚ := 5 / 100000

/-- The path-append step inside updateMemberMarker (setMemberPaths closure):
the incoming point is appended when there is no previous stored point, or when
it differs from the last stored point by more than PATH_THRESHOLD in the lng
coordinate or in the lat coordinate. -/
def appendPathPoint (currentPath : List Point) (lng lat : ℚ) : List Point :=
  match currentPath.getLast? with
  | none => currentPath ++ [(lng, lat)]
  | some lastPoint =>
    if |lastPoint.1 - lng| > PATH_THRESHOLD ∨ |lastPoint.2 - lat| > PATH_THRESHOLD then
      currentPath ++ [(lng, lat)]
    else
      currentPath

/-- The member-paths map update performed by setMemberPaths in
updateMemberMarker: only the entry of the reporting user changes, via
appendPathPoint; a missing entry reads as the empty path. -/
def setMemberPaths (paths : Nat → List Point) (userId : Nat) (lng lat : ℚ) :
    Nat → List Point :=
  fun u => if u = userId then appendPathPoint (paths userId) lng lat else paths u

/-- Feeding a stream of location updates through the path aggregator, one
appendPathPoint step per update. -/
def feedPath (path : List Point) : List Point → List Point
  | [] => path
  | q :: rest => feedPath (appendPathPoint path q.1 q.2) rest

/-- Modelled from the spec wording only: the squared Euclidean distance, in
geographic degrees, between two stored points.  This is the reading of the
phrase about a distance threshold radius; it is compared against the
per-coordinate test the source actually performs. -/
def specEuclideanDistSq (p q : Point) : ℚ :=
  (p.1 - q.1) ^ 2 + (p.2 - q.2) ^ 2

/-- A route record as POSTed to /api/routes by the archival code: its name,
its pathCoordinates (as (lat, lng) pairs, the order used by the JSON payload)
and its rounded totalDistance in meters. -/
structure RouteRecord where
  name : String
  pathCoordinates : List Point
  totalDistance : ℤ
deriving Repr, DecidableEq

/-- The distance loop of calculatePathDistance: zero for paths shorter than 2
points, otherwise the sum of a per-segment distance over consecutive points.
The per-segment function is a parameter standing for the transcendental
haversine formula (Earth radius 6371000 m) evaluated in floating point by the
source. -/
def calculatePathDistance (segDist : Point → Point → ℚ) (path : List Point) : ℚ :=
  if path.length < 2 then 0
  else ((path.zip path.tail).map (fun pq => segDist pq.1 pq.2)).sum

/-- The route name generated by saveSessionPathsAsRoutes for one member. -/
def memberRouteName (sessionName memberName : String) : String :=
  sessionName ++ " - " ++ memberName ++ "\x27s Path"

/-- The archival loop saveSessionPathsAsRoutes: every memberPaths entry with at
least 2 points yields one POSTed route whose coordinates are the path with each
(lng, lat) sample emitted as (lat, lng), and whose totalDistance is the rounded
path distance; shorter paths are skipped. -/
def saveSessionPathsAsRoutes (segDist : Point → Point → ℚ)
    (sessionName : String) (memberName : Nat → String)
    (memberPaths : List (Nat × List Point)) : List RouteRecord :=
  (memberPaths.filter (fun e => 2 ≤ e.2.length)).map (fun e =>
    { name := memberRouteName sessionName (memberName e.1)
      pathCoordinates := e.2.map (fun p => (p.2, p.1))
      totalDistance := round (calculatePathDistance segDist e.2) })

/-- The client state relevant to path archival: the in-memory memberPaths
entries and the list of routes persisted so far through /api/routes. -/
structure LiveMapClient where
  memberPaths : List (Nat × List Point)
  persisted : List RouteRecord
deriving Repr, DecidableEq

/-- The memberPaths.get lookup used by leaveMutation: the stored path of a
user, or the empty list when absent. -/
def lookupPath (paths : List (Nat × List Point)) (u : Nat) : List Point :=
  ((paths.find? (fun e => e.1 = u)).map Prod.snd).getD []

/-- The mutation function of deleteMutation (end session): it runs
saveSessionPathsAsRoutes and appends the resulting routes to the persisted
list; the source does not modify memberPaths here. -/
def runEndSession (segDist : Point → Point → ℚ) (sessionName : String)
    (memberName : Nat → String) (s : LiveMapClient) : LiveMapClient :=
  { s with persisted :=
      s.persisted ++ saveSessionPathsAsRoutes segDist sessionName memberName s.memberPaths }

/-- The mutation function of leaveMutation: when the leaving user has a stored
path of at least 2 points it is persisted as one more route; the source does
not modify memberPaths here either. -/
def runLeave (segDist : Point → Point → ℚ) (sessionName : String) (uid : Nat)
    (s : LiveMapClient) : LiveMapClient :=
  if 2 ≤ (lookupPath s.memberPaths uid).length then
    { s with persisted := s.persisted ++
        [{ name := sessionName ++ " - My Path"
           pathCoordinates := (lookupPath s.memberPaths uid).map (fun p => (p.2, p.1))
           totalDistance := round (calculatePathDistance segDist (lookupPath s.memberPaths uid)) }] }
  else s

/-- The WebSocket effect state: reconnectAttemptRef, intentionalCloseRef and
the pending reconnect timeout (its delay in ms) when one is scheduled. -/
structure ConnState where
  reconnectAttempt : Nat
  intentionalClose : Bool
  scheduledReconnect : Option Nat
deriving Repr, DecidableEq

/-- The reconnect delay computed in ws.onclose for a given attempt number. -/
def backoffDelay (attempt : Nat) : Nat :=
  min (1000 * 2 ^ attempt) 30000

/-- The ws.onopen handler: the reconnect attempt counter is reset to 0. -/
def handleOpen (s : ConnState) : ConnState :=
  { s with reconnectAttempt := 0 }

/-- The ws.onclose handler: when the close was not intentional, a reconnect is
scheduled after backoffDelay of the current attempt number and the counter is
incremented; an intentional close does nothing. -/
def handleClose (s : ConnState) : ConnState :=
  if s.intentionalClose then s
  else
    { s with
      scheduledReconnect := some (backoffDelay s.reconnectAttempt)
      reconnectAttempt := s.reconnectAttempt + 1 }

/-- The transport events observed by the WebSocket effect after mount. -/
inductive ConnEvent
  | wsOpen
  | wsClose
  | wsError
deriving Repr, DecidableEq

/-- Dispatch of one transport event: onopen resets the counter, onclose runs
the reconnect logic, onerror only logs. -/
def stepConn (s : ConnState) : ConnEvent → ConnState
  | ConnEvent.wsOpen => handleOpen s
  | ConnEvent.wsClose => handleClose s
  | ConnEvent.wsError => s

/-- The effect cleanup: intentionalCloseRef is set to true and any pending
reconnect timeout is cleared before the socket is closed. -/
def cleanupConnection (s : ConnState) : ConnState :=
  { s with intentionalClose := true, scheduledReconnect := none }

/-- Folding a sequence of transport events through the handlers. -/
def runConn (s : ConnState) (evs : List ConnEvent) : ConnState :=
  evs.foldl stepConn s

/-- The signal-lost threshold SIGNAL_LOST_THRESHOLD = 2 * 60 * 1000 ms. -/
def SIGNAL_LOST_THRESHOLD : Nat := 2 * 60 * 1000

/-- The period of the setInterval that runs checkSignalLost. -/
def SIGNAL_LOST_INTERVAL : Nat := 15000

/-- Presence state: the local user id, memberLastUpdateRef (last-active
timestamp per member, when one was recorded) and the per-member signal-lost
indicator currently displayed. -/
structure PresenceState where
  localUser : Nat
  lastUpdate : Nat → Option Nat
  signalLost : Nat → Bool

/-- Presence state on mount: no timestamps recorded, no indicator shown. -/
def initPresence (localUser : Nat) : PresenceState :=
  { localUser := localUser
    lastUpdate := fun _ => none
    signalLost := fun _ => false }

/-- The presence part of updateMemberMarker for an incoming location update:
for the local user nothing is recorded; for any other member the last-active
timestamp is set to now and the signal-lost indicator is hidden. -/
def updateMemberPresence (s : PresenceState) (userId now : Nat) : PresenceState :=
  if userId = s.localUser then s
  else
    { s with
      lastUpdate := fun v => if v = userId then some now else s.lastUpdate v
      signalLost := fun v => if v = userId then false else s.signalLost v }

/-- The checkSignalLost sweep: every member with a recorded timestamp, other
than the local user, gets the signal-lost indicator shown when the elapsed
time exceeds SIGNAL_LOST_THRESHOLD; otherwise the indicator is left as it is
(the sweep never hides it). -/
def checkSignalLost (s : PresenceState) (now : Nat) : PresenceState :=
  { s with signalLost := fun u =>
      match s.lastUpdate u with
      | none => s.signalLost u
      | some t =>
        if u = s.localUser then s.signalLost u
        else if t + SIGNAL_LOST_THRESHOLD < now then true
        else s.signalLost u }

/-- Presence events: an incoming location update for a member, or one run of
the periodic sweep, each carrying the wall-clock time it happens at. -/
inductive PresenceEvent
  | locUpdate (userId : Nat) (t : Nat)
  | sweep (t : Nat)
deriving Repr, DecidableEq

/-- The wall-clock time an event happens at. -/
def eventTime : PresenceEvent → Nat
  | PresenceEvent.locUpdate _ t => t
  | PresenceEvent.sweep t => t

/-- Dispatch of one presence event. -/
def stepPresence (s : PresenceState) : PresenceEvent → PresenceState
  | PresenceEvent.locUpdate u t => updateMemberPresence s u t
  | PresenceEvent.sweep t => checkSignalLost s t

/-- Folding a presence event history. -/
def runPresence (s : PresenceState) (evs : List PresenceEvent) : PresenceState :=
  evs.foldl stepPresence s

/-- Event times are nondecreasing along the history, starting from t0 and
ending no later than tEnd (wall-clock monotonicity). -/
def TimesLe : Nat → List PresenceEvent → Nat → Prop
  | t0, [], tEnd => t0 ≤ tEnd
  | t0, e :: rest, tEnd => t0 ≤ eventTime e ∧ TimesLe (eventTime e) rest tEnd

/-- Reachability invariant of the presence state at wall-clock time now: the
local user is never marked, and any marked member has a recorded timestamp
already more than SIGNAL_LOST_THRESHOLD in the past. -/
def InvPresence (s : PresenceState) (now : Nat) : Prop :=
  s.signalLost s.localUser = false ∧
  ∀ u, s.signalLost u = true →
    ∃ t, s.lastUpdate u = some t ∧ t + SIGNAL_LOST_THRESHOLD < now

/-- The session record as read by the client page; only the fields the ended
state depends on are kept. -/
structure LiveSession where
  isActive : Bool
deriving Repr, DecidableEq

/-- The isSessionEnded derivation: a session is ended when it is loaded and
its isActive flag is false. -/
def isSessionEnded (session : Option LiveSession) : Bool :=
  match session with
  | some s => !s.isActive
  | none => false

/-- Server-to-client messages dispatched by ws.onmessage. -/
inductive ServerMessage
  | memberLocationUpdate (userId : Nat) (latitude longitude : ℚ)
  | memberJoined
  | memberLeft
  | memberDisconnected
  | messageNew
  | poiCreated
  | poiDeleted
  | routeCreated
  | routeDeleted
  | routeUpdated
  | sessionEnded
deriving Repr, DecidableEq

/-- Local effects the ws.onmessage handler performs. -/
inductive ClientAction
  | updateMarker (userId : Nat) (latitude longitude : ℚ)
  | invalidateSessionQuery
  | showToast (title : String)
  | navigateHome
deriving Repr, DecidableEq

/-- The ws.onmessage dispatch of the main connection effect: location updates
move the marker and extend the path, entity events refresh the session query,
and session:ended shows one toast and navigates back to the home screen. -/
def handleWsMessage : ServerMessage → List ClientAction
  | ServerMessage.memberLocationUpdate u lat lng => [ClientAction.updateMarker u lat lng]
  | ServerMessage.memberJoined => [ClientAction.invalidateSessionQuery]
  | ServerMessage.memberLeft => [ClientAction.invalidateSessionQuery]
  | ServerMessage.memberDisconnected => [ClientAction.invalidateSessionQuery]
  | ServerMessage.messageNew => [ClientAction.invalidateSessionQuery]
  | ServerMessage.poiCreated => [ClientAction.invalidateSessionQuery]
  | ServerMessage.poiDeleted => [ClientAction.invalidateSessionQuery]
  | ServerMessage.routeCreated => [ClientAction.invalidateSessionQuery]
  | ServerMessage.routeDeleted => [ClientAction.invalidateSessionQuery]
  | ServerMessage.routeUpdated => [ClientAction.invalidateSessionQuery]
  | ServerMessage.sessionEnded =>
      [ClientAction.showToast "Session ended", ClientAction.navigateHome]

/-- The parts of the page render that depend on the ended state: the archive
banner, the (Ended) tag, the disabled draw and import route buttons, whether
the End Session / Leave button is offered at all, and whether the route delete
button is shown to a user who may manage the route. -/
structure LiveMapView where
  endedBanner : Bool
  endedTag : Bool
  drawRouteDisabled : Bool
  importRouteDisabled : Bool
  endOrLeaveVisible : Bool
  routeDeleteVisible : Bool
deriving Repr, DecidableEq

/-- The render of the live map page as a function of the loaded session and
of the canManage authorization of the viewer for a route. -/
def renderLiveMap (session : Option LiveSession) (canManage : Bool) : LiveMapView :=
  { endedBanner := isSessionEnded session
    endedTag := isSessionEnded session
    drawRouteDisabled := isSessionEnded session
    importRouteDisabled := isSessionEnded session
    endOrLeaveVisible := !isSessionEnded session
    routeDeleteVisible := canManage && !isSessionEnded session }

/-- One GPS fix from the device location provider, with the coordinate fields
the watchPosition callback reads. -/
structure GeoPosition where
  latitude : ℚ
  longitude : ℚ
  accuracy : ℚ
  heading : ℚ
deriving Repr, DecidableEq

/-- Client-to-server messages sent over the WebSocket. -/
inductive ClientMessage
  | auth (userId : Nat)
  | sessionJoin (sessionId : Nat)
  | sessionLocation (latitude longitude accuracy heading : ℚ)
deriving Repr, DecidableEq

/-- The watchPosition success callback: when the socket is open the fix is
forwarded as one session:location message carrying latitude, longitude,
accuracy and heading; otherwise nothing is sent. -/
def onPositionFix (wsIsOpen : Bool) (pos : GeoPosition) : List ClientMessage :=
  if wsIsOpen then
    [ClientMessage.sessionLocation pos.latitude pos.longitude pos.accuracy pos.heading]
  else []

/-- The geolocation watch lifecycle state: the current watch id (if any), the
id the next watchPosition call will return, and the ids already passed to
clearWatch. -/
structure WatchState where
  watchId : Option Nat
  nextWatchId : Nat
  cleared : List Nat
deriving Repr, DecidableEq

/-- The clearWatch call of handleLiveMapResume on the previous watch id. -/
def clearCurrentWatch (w : WatchState) : WatchState :=
  match w.watchId with
  | some id => { w with watchId := none, cleared := w.cleared ++ [id] }
  | none => w

/-- The location part of handleLiveMapResume: the previous geolocation watch,
when one exists, is cleared, and a fresh watchPosition subscription is
created. -/
def handleLiveMapResume (w : WatchState) : WatchState :=
  { clearCurrentWatch w with
      watchId := some (clearCurrentWatch w).nextWatchId
      nextWatchId := (clearCurrentWatch w).nextWatchId + 1 }

/-- The useBackgroundResilience foreground path: when the page is active,
every return to the foreground invokes handleLiveMapResume. -/
def onForegroundResume (isActive : Bool) (w : WatchState) : WatchState :=
  if isActive then handleLiveMapResume w else w

/-! ### Helper lemmas about the path aggregator -/

/-- Evaluation of appendPathPoint when the displacement test fails. -/
theorem appendPathPoint_of_not_over (path : List Point) (lp : Point) (lng lat : ℚ)
    (hl : path.getLast? = some lp)
    (hno : ¬(|lp.1 - lng| > PATH_THRESHOLD ∨ |lp.2 - lat| > PATH_THRESHOLD)) :
    appendPathPoint path lng lat = path := by
  unfold appendPathPoint
  rw [hl]
  exact if_neg hno

/-- Evaluation of appendPathPoint when the displacement test passes. -/
theorem appendPathPoint_of_over (path : List Point) (lp : Point) (lng lat : ℚ)
    (hl : path.getLast? = some lp)
    (hyes : |lp.1 - lng| > PATH_THRESHOLD ∨ |lp.2 - lat| > PATH_THRESHOLD) :
    appendPathPoint path lng lat = path ++ [(lng, lat)] := by
  unfold appendPathPoint
  rw [hl]
  exact if_pos hyes

/-- Each appendPathPoint step leaves the path unchanged or appends the new
point at the end. -/
theorem appendPathPoint_cases (path : List Point) (lng lat : ℚ) :
    appendPathPoint path lng lat = path ∨
    appendPathPoint path lng lat = path ++ [(lng, lat)] := by
  unfold appendPathPoint
  cases hl : path.getLast? with
  | none => right; rfl
  | some lp =>
    by_cases hc : |lp.1 - lng| > PATH_THRESHOLD ∨ |lp.2 - lat| > PATH_THRESHOLD
    · right; exact if_pos hc
    · left; exact if_neg hc

/-- A point within the Euclidean threshold radius of the single stored point
is dropped by the aggregator. -/
theorem appendPathPoint_singleton_near (p0 q : Point)
    (h : specEuclideanDistSq p0 q ≤ PATH_THRESHOLD ^ 2) :
    appendPathPoint [p0] q.1 q.2 = [p0] := by
  have hthr : (0:ℚ) ≤ PATH_THRESHOLD := by norm_num [PATH_THRESHOLD]
  have hsq : (p0.1 - q.1) ^ 2 + (p0.2 - q.2) ^ 2 ≤ PATH_THRESHOLD ^ 2 := h
  have ha1 : ¬ PATH_THRESHOLD < |p0.1 - q.1| := by
    intro hlt
    have h0 : (0:ℚ) ≤ |p0.1 - q.1| := abs_nonneg _
    nlinarith [sq_abs (p0.1 - q.1), sq_nonneg (p0.2 - q.2)]
  have ha2 : ¬ PATH_THRESHOLD < |p0.2 - q.2| := by
    intro hlt
    have h0 : (0:ℚ) ≤ |p0.2 - q.2| := abs_nonneg _
    nlinarith [sq_abs (p0.2 - q.2), sq_nonneg (p0.1 - q.1)]
  exact appendPathPoint_of_not_over [p0] p0 q.1 q.2 rfl (fun hor => hor.elim ha1 ha2)

/-- Feeding any stream of points that all lie within the Euclidean threshold
radius of the single stored point leaves the path a singleton. -/
theorem feedPath_singleton (p0 : Point) (updates : List Point)
    (h : ∀ q ∈ updates, specEuclideanDistSq p0 q ≤ PATH_THRESHOLD ^ 2) :
    feedPath [p0] updates = [p0] := by
  induction updates with
  | nil => rfl
  | cons q rest ih =>
    rw [feedPath, appendPathPoint_singleton_near p0 q (h q (by simp))]
    exact ih (fun r hr => h r (by simp [hr]))

/-! ### C1: displacement threshold for path accumulation -/

/-- C1 counterexample: the update (0.00004, 0.00004) lies at Euclidean
distance about 0.0000566 degrees from the stored point (0, 0), strictly beyond
the 0.00005-degree threshold, yet the aggregator drops it, because neither
single coordinate moves by more than the threshold: the path does not gain a
point even though the update's distance from the last stored point exceeds the
minimum-displacement threshold. -/
theorem c1_counterexample_diagonal_update :
    specEuclideanDistSq (0, 0) (1/25000, 1/25000) > PATH_THRESHOLD ^ 2 ∧
    appendPathPoint [(0, 0)] (1/25000) (1/25000) = [(0, 0)] := by
  constructor
  · norm_num [specEuclideanDistSq, PATH_THRESHOLD]
  · refine appendPathPoint_of_not_over [(0, 0)] (0, 0) (1/25000) (1/25000) rfl ?_
    norm_num [PATH_THRESHOLD, abs_le]

/-- C1 (amended): for a member with a stored path, an incoming update is
appended if and only if its displacement from the last stored point exceeds
the 0.00005-degree threshold in the lng coordinate or in the lat coordinate
(Chebyshev rather than Euclidean distance); otherwise the path is unchanged;
and feeding any number of points all within the Euclidean threshold radius of
the first point yields a path of length 1. -/
theorem c1_path_gains_point_iff_axis_displacement (path : List Point) (lp : Point)
    (hl : path.getLast? = some lp) (lng lat : ℚ) (p0 : Point) (updates : List Point)
    (hnear : ∀ q ∈ updates, specEuclideanDistSq p0 q ≤ PATH_THRESHOLD ^ 2) :
    (appendPathPoint path lng lat = path ++ [(lng, lat)] ↔
      |lp.1 - lng| > PATH_THRESHOLD ∨ |lp.2 - lat| > PATH_THRESHOLD) ∧
    (¬(|lp.1 - lng| > PATH_THRESHOLD ∨ |lp.2 - lat| > PATH_THRESHOLD) →
      appendPathPoint path lng lat = path) ∧
    (feedPath [p0] updates).length = 1 := by
  refine ⟨⟨fun happ => ?_, fun hc => appendPathPoint_of_over path lp lng lat hl hc⟩,
    fun hno => appendPathPoint_of_not_over path lp lng lat hl hno, ?_⟩
  · by_contra hno
    have h1 : appendPathPoint path lng lat = path :=
      appendPathPoint_of_not_over path lp lng lat hl hno
    have h2 : path.length = path.length + 1 := by
      conv_lhs => rw [← h1, happ]
      simp
    omega
  · rw [feedPath_singleton p0 updates hnear]
    rfl

/-- C1 witness: the amended theorem applied to the stored path [(0, 0)] with
the update (0.001, 0), which moves beyond the threshold in the lng coordinate
alone, and to two below-threshold samples around (10, 10). -/
theorem c1_path_gains_point_iff_axis_displacement_witness :
    appendPathPoint [((0 : ℚ), (0 : ℚ))] (1/1000) 0 = [(0, 0), (1/1000, 0)] ∧
    (feedPath [((10 : ℚ), (10 : ℚ))] [(10 + 1/100000, 10), (10, 10 - 1/100000)]).length = 1 := by
  have h := c1_path_gains_point_iff_axis_displacement [((0 : ℚ), (0 : ℚ))] (0, 0) rfl
    (1/1000) 0 ((10 : ℚ), (10 : ℚ)) [(10 + 1/100000, 10), (10, 10 - 1/100000)]
    (by
      intro q hq
      simp only [List.mem_cons, List.not_mem_nil, or_false] at hq
      rcases hq with rfl | rfl <;> norm_num [specEuclideanDistSq, PATH_THRESHOLD])
  refine ⟨h.1.mpr ?_, h.2.2⟩
  left
  norm_num [PATH_THRESHOLD, lt_abs]

/-! ### C9 and C10: path monotonicity and the unconditional first point -/

/-- C9: while the session is active every operation on the member-paths map is
monotone: a location update either appends exactly one point to the reporting
member's path or leaves it unchanged, and leaves every other member's path
untouched; the archival operations (end session, leave) never modify the
in-memory member paths at all. -/
theorem c9_member_paths_monotone (paths : Nat → List Point) (userId : Nat)
    (lng lat : ℚ) (u : Nat) (segDist : Point → Point → ℚ) (sessionName : String)
    (memberName : Nat → String) (uid : Nat) (s : LiveMapClient) :
    (setMemberPaths paths userId lng lat u = paths u ∨
      setMemberPaths paths userId lng lat u = paths u ++ [(lng, lat)]) ∧
    (runEndSession segDist sessionName memberName s).memberPaths = s.memberPaths ∧
    (runLeave segDist sessionName uid s).memberPaths = s.memberPaths := by
  refine ⟨?_, rfl, ?_⟩
  · unfold setMemberPaths
    by_cases hu : u = userId
    · subst hu
      simpa using appendPathPoint_cases (paths u) lng lat
    · simp [hu]
  · unfold runLeave
    split <;> rfl

/-- C10: when a member's accumulated path is empty, the first received
location update is appended unconditionally, with no displacement test. -/
theorem c10_first_point_unconditional (lng lat : ℚ) (paths : Nat → List Point)
    (userId : Nat) :
    appendPathPoint [] lng lat = [(lng, lat)] ∧
    (paths userId = [] → setMemberPaths paths userId lng lat userId = [(lng, lat)]) := by
  refine ⟨rfl, fun hempty => ?_⟩
  unfold setMemberPaths
  simp [hempty]
  rfl

/-- C10 witness: the first update for a user with no stored path is appended
as the singleton path. -/
theorem c10_first_point_unconditional_witness :
    setMemberPaths (fun _ => []) 0 1 2 0 = [((1 : ℚ), (2 : ℚ))] :=
  (c10_first_point_unconditional 1 2 (fun _ => []) 0).2 rfl

/-! ### C3 and C7: reconnect backoff and intentional close -/

/-- When the intentional-close flag is set and no reconnect is pending, no
transport event schedules a reconnect or resets the flag. -/
theorem stepConn_preserves_closed (s : ConnState) (e : ConnEvent)
    (h1 : s.intentionalClose = true) (h2 : s.scheduledReconnect = none) :
    (stepConn s e).intentionalClose = true ∧
    (stepConn s e).scheduledReconnect = none := by
  cases e <;> simp [stepConn, handleOpen, handleClose, h1, h2]

/-- The closed configuration is preserved by any sequence of transport
events. -/
theorem runConn_preserves_closed (evs : List ConnEvent) (s : ConnState)
    (h1 : s.intentionalClose = true) (h2 : s.scheduledReconnect = none) :
    (runConn s evs).intentionalClose = true ∧
    (runConn s evs).scheduledReconnect = none := by
  induction evs generalizing s with
  | nil => exact ⟨h1, h2⟩
  | cons e rest ih =>
    have hstep := stepConn_preserves_closed s e h1 h2
    exact ih (stepConn s e) hstep.1 hstep.2

/-- C3: after a non-intentional close the scheduled reconnect delay for
attempt number n is min(1000 ms * 2^n, 30000 ms), the attempt counter is
incremented by the failure, a successful re-open resets it to 0, and the
delays for attempts 0..5 are 1000, 2000, 4000, 8000, 16000, 30000 ms. -/
theorem c3_reconnect_backoff (s : ConnState) (h : s.intentionalClose = false) :
    (handleClose s).scheduledReconnect = some (min (1000 * 2 ^ s.reconnectAttempt) 30000) ∧
    (handleClose s).reconnectAttempt = s.reconnectAttempt + 1 ∧
    (handleOpen s).reconnectAttempt = 0 ∧
    [backoffDelay 0, backoffDelay 1, backoffDelay 2, backoffDelay 3, backoffDelay 4,
      backoffDelay 5] = [1000, 2000, 4000, 8000, 16000, 30000] := by
  refine ⟨?_, ?_, rfl, by decide⟩ <;> simp [handleClose, h, backoffDelay]

/-- C3 witness: the backoff theorem evaluated at attempt number 3 of a
non-intentionally closed connection. -/
theorem c3_reconnect_backoff_witness :
    (handleClose
      { reconnectAttempt := 3, intentionalClose := false,
        scheduledReconnect := none }).scheduledReconnect = some 8000 := by
  have h := c3_reconnect_backoff
    { reconnectAttempt := 3, intentionalClose := false, scheduledReconnect := none } rfl
  have h1 := h.1
  norm_num at h1
  exact h1

/-- C7: once the effect cleanup of a user-initiated disconnect has set the
intentional-close flag (and cleared any pending reconnect timer), no sequence
of later transport events — in particular no close event — ever schedules a
reconnect attempt, and the flag stays set. -/
theorem c7_no_reconnect_after_intentional_close (s : ConnState) (evs : List ConnEvent) :
    (runConn (cleanupConnection s) evs).scheduledReconnect = none ∧
    (runConn (cleanupConnection s) evs).intentionalClose = true := by
  have h := runConn_preserves_closed evs (cleanupConnection s) rfl rfl
  exact ⟨h.2, h.1⟩

/-! ### C2: the in-memory path is never cleared after a flush -/

/-- C2 (code evaluated at the failing input): a member with the two-point path
[(0, 0), (1, 0)] goes through endSession (which flushes every member path as a
route) and then leave.  The source never clears memberPaths — endSession
leaves the entries exactly as they were — so the leave flushes the very same
path a second time: after the two operations the persisted route list contains
the same pathCoordinates twice, contradicting the claimed at-most-once
flush. -/
theorem c2_flush_not_cleared_path_persisted_twice :
    (runEndSession (fun _ _ => 0) "Trip" (fun _ => "A")
        { memberPaths := [(1, [(0, 0), (1, 0)])], persisted := [] }).memberPaths =
      [(1, [(0, 0), (1, 0)])] ∧
    ((runLeave (fun _ _ => 0) "Trip" 1
        (runEndSession (fun _ _ => 0) "Trip" (fun _ => "A")
          { memberPaths := [(1, [(0, 0), (1, 0)])], persisted := [] })).persisted.map
      RouteRecord.pathCoordinates) = [[(0, 0), (0, 1)], [(0, 0), (0, 1)]] := by
  decide

/-! ### C4: archival of member paths as routes on session end -/

/-- C4: ending a session persists, for each memberPaths entry with at least 2
points, exactly one route — the route count equals the count of such entries —
whose name is the generated session-referencing name, whose point sequence is
exactly that member's accumulated path (re-emitted as (lat, lng) records), and
whose total distance is the per-segment distance summed over consecutive path
points and rounded; every persisted route arises from such an entry, so
members with fewer than 2 points produce no route; and the generated name
always extends the session name. -/
theorem c4_end_session_route_persistence (segDist : Point → Point → ℚ)
    (sessionName : String) (memberName : Nat → String)
    (memberPaths : List (Nat × List Point)) :
    (saveSessionPathsAsRoutes segDist sessionName memberName memberPaths).length =
      (memberPaths.filter (fun e => 2 ≤ e.2.length)).length ∧
    (∀ u path, (u, path) ∈ memberPaths → 2 ≤ path.length →
      ({ name := memberRouteName sessionName (memberName u)
         pathCoordinates := path.map (fun p => (p.2, p.1))
         totalDistance := round (calculatePathDistance segDist path) } : RouteRecord) ∈
        saveSessionPathsAsRoutes segDist sessionName memberName memberPaths) ∧
    (∀ r ∈ saveSessionPathsAsRoutes segDist sessionName memberName memberPaths,
      ∃ u path, (u, path) ∈ memberPaths ∧ 2 ≤ path.length ∧
        r.name = memberRouteName sessionName (memberName u) ∧
        r.pathCoordinates = path.map (fun p => (p.2, p.1)) ∧
        r.totalDistance = round (calculatePathDistance segDist path)) ∧
    (∀ mn : String, ∃ t, memberRouteName sessionName mn = sessionName ++ t) := by
  refine ⟨by simp [saveSessionPathsAsRoutes], ?_, ?_, ?_⟩
  · intro u path hmem hlen
    unfold saveSessionPathsAsRoutes
    refine List.mem_map.mpr ⟨(u, path), ?_, rfl⟩
    exact List.mem_filter.mpr ⟨hmem, by simpa using hlen⟩
  · intro r hr
    unfold saveSessionPathsAsRoutes at hr
    rcases List.mem_map.mp hr with ⟨e, he, rfl⟩
    rcases List.mem_filter.mp he with ⟨hmem, hlen⟩
    exact ⟨e.1, e.2, hmem, by simpa using hlen, rfl, rfl, rfl⟩
  · intro mn
    exact ⟨" - " ++ mn ++ "\x27s Path", by simp [memberRouteName, String.append_assoc]⟩

/-- C4 witness: for a single member with the two-point path [(0, 0), (1, 0)]
and the zero segment distance, the archival produces the corresponding
route. -/
theorem c4_end_session_route_persistence_witness :
    ({ name := "S - A\x27s Path", pathCoordinates := [(0, 0), (0, 1)],
       totalDistance := 0 } : RouteRecord) ∈
      saveSessionPathsAsRoutes (fun _ _ => 0) "S" (fun _ => "A")
        [(1, [((0 : ℚ), (0 : ℚ)), (1, 0)])] := by
  have h := (c4_end_session_route_persistence (fun _ _ => 0) "S" (fun _ => "A")
    [(1, [((0 : ℚ), (0 : ℚ)), (1, 0)])]).2.1 1 [((0 : ℚ), (0 : ℚ)), (1, 0)]
    (by simp) (by norm_num)
  simpa [calculatePathDistance, memberRouteName] using h

/-! ### C5: the signal-lost sweep -/

/-- The presence invariant only weakens as wall-clock time advances. -/
theorem invPresence_mono (s : PresenceState) (t1 t2 : Nat) (h : InvPresence s t1)
    (hle : t1 ≤ t2) : InvPresence s t2 := by
  refine ⟨h.1, fun u hu => ?_⟩
  rcases h.2 u hu with ⟨t, heq, hlt⟩
  exact ⟨t, heq, lt_of_lt_of_le hlt hle⟩

/-- No presence event changes the local user id. -/
theorem stepPresence_localUser (s : PresenceState) (e : PresenceEvent) :
    (stepPresence s e).localUser = s.localUser := by
  cases e with
  | locUpdate w tw =>
    show (updateMemberPresence s w tw).localUser = s.localUser
    unfold updateMemberPresence
    split <;> rfl
  | sweep tw => rfl

/-- The local user id is constant along any event history. -/
theorem runPresence_localUser (evs : List PresenceEvent) (s : PresenceState) :
    (runPresence s evs).localUser = s.localUser := by
  induction evs generalizing s with
  | nil => rfl
  | cons e rest ih =>
    have hstep : runPresence s (e :: rest) = runPresence (stepPresence s e) rest := rfl
    rw [hstep, ih]
    exact stepPresence_localUser s e

/-- One presence event preserves the invariant at the time it happens. -/
theorem invPresence_step (s : PresenceState) (e : PresenceEvent)
    (h : InvPresence s (eventTime e)) :
    InvPresence (stepPresence s e) (eventTime e) := by
  cases e with
  | locUpdate w tw =>
    show InvPresence (updateMemberPresence s w tw) tw
    have htw : InvPresence s tw := h
    unfold updateMemberPresence
    split
    · exact htw
    · next hne =>
      constructor
      · show (if s.localUser = w then false else s.signalLost s.localUser) = false
        by_cases hl : s.localUser = w
        · simp [hl]
        · simp [hl, htw.1]
      · intro u hu
        have hu2 : (if u = w then false else s.signalLost u) = true := hu
        by_cases huw : u = w
        · rw [if_pos huw] at hu2
          cases hu2
        · rw [if_neg huw] at hu2
          rcases htw.2 u hu2 with ⟨t, heq, hlt⟩
          refine ⟨t, ?_, hlt⟩
          show (if u = w then some tw else s.lastUpdate u) = some t
          rw [if_neg huw, heq]
  | sweep tw =>
    show InvPresence (checkSignalLost s tw) tw
    have htw : InvPresence s tw := h
    constructor
    · show (checkSignalLost s tw).signalLost s.localUser = false
      cases hl : s.lastUpdate s.localUser <;> simp [checkSignalLost, hl, htw.1]
    · intro u hu
      cases hl : s.lastUpdate u with
      | none =>
        simp only [checkSignalLost, hl] at hu
        rcases htw.2 u hu with ⟨t, heq, _⟩
        rw [hl] at heq
        cases heq
      | some t =>
        simp only [checkSignalLost, hl] at hu
        by_cases hul : u = s.localUser
        · rw [if_pos hul] at hu
          rw [hul] at hu
          rw [htw.1] at hu
          cases hu
        · rw [if_neg hul] at hu
          by_cases hcond : t + SIGNAL_LOST_THRESHOLD < tw
          · exact ⟨t, hl, hcond⟩
          · rw [if_neg hcond] at hu
            rcases htw.2 u hu with ⟨t2, heq2, hlt2⟩
            rw [hl] at heq2
            injection heq2 with he
            exact ⟨t, hl, by omega⟩

/-- The invariant holds after any wall-clock-monotone event history. -/
theorem invPresence_run (evs : List PresenceEvent) (s : PresenceState) (t0 tEnd : Nat)
    (h : InvPresence s t0) (hmono : TimesLe t0 evs tEnd) :
    InvPresence (runPresence s evs) tEnd := by
  induction evs generalizing s t0 with
  | nil => exact invPresence_mono s t0 tEnd h hmono
  | cons e rest ih =>
    have h1 : InvPresence s (eventTime e) := invPresence_mono s t0 (eventTime e) h hmono.1
    exact ih (stepPresence s e) (eventTime e) (invPresence_step s e h1) hmono.2

/-- C5: after any wall-clock-monotone history of location updates and sweeps,
a run of the periodic sweep at time now marks a member as signal-lost exactly
when now minus that member's recorded last-active timestamp exceeds the
120000 ms threshold — and the local user is never marked; the sweep interval
is 15000 ms and the threshold is 120000 ms.  The flag lives only in this
derived presence state; no persistence call appears in the sweep. -/
theorem c5_signal_lost_sweep (localUser now : Nat) (evs : List PresenceEvent)
    (hmono : TimesLe 0 evs now) :
    (∀ u,
      (checkSignalLost (runPresence (initPresence localUser) evs) now).signalLost u = true ↔
        u ≠ localUser ∧ ∃ t,
          (runPresence (initPresence localUser) evs).lastUpdate u = some t ∧
          now - t > SIGNAL_LOST_THRESHOLD) ∧
    (checkSignalLost (runPresence (initPresence localUser) evs) now).signalLost localUser
      = false ∧
    SIGNAL_LOST_INTERVAL = 15000 ∧
    SIGNAL_LOST_THRESHOLD = 120000 := by
  have hinit : InvPresence (initPresence localUser) 0 :=
    ⟨rfl, fun u hu => by simp [initPresence] at hu⟩
  have hinv := invPresence_run evs (initPresence localUser) 0 now hinit hmono
  have hloc : (runPresence (initPresence localUser) evs).localUser = localUser :=
    runPresence_localUser evs (initPresence localUser)
  set s := runPresence (initPresence localUser) evs with hs
  have hmain : ∀ u, (checkSignalLost s now).signalLost u = true ↔
      u ≠ localUser ∧ ∃ t, s.lastUpdate u = some t ∧ now - t > SIGNAL_LOST_THRESHOLD := by
    intro u
    constructor
    · intro hu
      cases hl : s.lastUpdate u with
      | none =>
        simp only [checkSignalLost, hl] at hu
        rcases hinv.2 u hu with ⟨t, heq, _⟩
        rw [hl] at heq
        cases heq
      | some t =>
        simp only [checkSignalLost, hl] at hu
        by_cases hul : u = s.localUser
        · rw [if_pos hul] at hu
          rw [hul, hinv.1] at hu
          cases hu
        · by_cases hcond : t + SIGNAL_LOST_THRESHOLD < now
          · exact ⟨by rw [← hloc]; exact hul, t, rfl, by omega⟩
          · rw [if_neg hul, if_neg hcond] at hu
            rcases hinv.2 u hu with ⟨t2, heq2, hlt2⟩
            rw [hl] at heq2
            injection heq2 with he
            exact ⟨by rw [← hloc]; exact hul, t, rfl, by omega⟩
    · rintro ⟨hne, t, heq, hgt⟩
      have hul : ¬ u = s.localUser := by rw [hloc]; exact hne
      have hcond : t + SIGNAL_LOST_THRESHOLD < now := by omega
      simp only [checkSignalLost, heq]
      rw [if_neg hul, if_pos hcond]
  refine ⟨hmain, ?_, rfl, rfl⟩
  by_contra hfalse
  have htrue : (checkSignalLost s now).signalLost localUser = true := by
    cases hb : (checkSignalLost s now).signalLost localUser
    · exact absurd hb hfalse
    · rfl
  exact ((hmain localUser).mp htrue).1 rfl

/-- C5 witness: with local user 0, a member 1 last active at t = 10 and a
sweep at t = 200000 (elapsed 199990 ms beyond the 120000 ms threshold), the
sweep marks member 1 as signal-lost. -/
theorem c5_signal_lost_sweep_witness :
    (checkSignalLost (runPresence (initPresence 0)
        [PresenceEvent.locUpdate 1 10, PresenceEvent.sweep 200000]) 200000).signalLost 1
      = true := by
  have h := c5_signal_lost_sweep 0 200000
    [PresenceEvent.locUpdate 1 10, PresenceEvent.sweep 200000]
    (by norm_num [TimesLe, eventTime])
  refine (h.1 1).mpr ⟨by norm_num, 10, rfl, by norm_num [SIGNAL_LOST_THRESHOLD]⟩

/-! ### C6: behavior when the session is found to be ended -/

/-- C6 counterexample: when an actively viewing client learns over the
real-time channel that the session has ended, the handler's entire effect is
one toast and a navigation back to the home screen — the client leaves the
session view instead of switching it to read-only, and it does not even
refresh the session query that drives the read-only rendering. -/
theorem c6_counterexample_ws_ended_navigates_home :
    handleWsMessage ServerMessage.sessionEnded =
      [ClientAction.showToast "Session ended", ClientAction.navigateHome] ∧
    ClientAction.invalidateSessionQuery ∉ handleWsMessage ServerMessage.sessionEnded := by
  decide

/-- C6 (amended): a client that learns of the end through the real-time
channel gets exactly one toast notice and is navigated home (no error path);
a client whose loaded session state shows the session inactive derives
isSessionEnded and renders the read-only archive: banner and (Ended) tag
shown, draw-route and import-route controls disabled, the end/leave button
replaced, and the route delete button hidden even for a user who could
otherwise manage the route. -/
theorem c6_ended_session_readonly_view (s : LiveSession) (canManage : Bool)
    (h : s.isActive = false) :
    ((handleWsMessage ServerMessage.sessionEnded).countP
        (fun a => match a with | ClientAction.showToast _ => true | _ => false) = 1 ∧
      ClientAction.navigateHome ∈ handleWsMessage ServerMessage.sessionEnded) ∧
    isSessionEnded (some s) = true ∧
    (renderLiveMap (some s) canManage).endedBanner = true ∧
    (renderLiveMap (some s) canManage).endedTag = true ∧
    (renderLiveMap (some s) canManage).drawRouteDisabled = true ∧
    (renderLiveMap (some s) canManage).importRouteDisabled = true ∧
    (renderLiveMap (some s) canManage).endOrLeaveVisible = false ∧
    (renderLiveMap (some s) canManage).routeDeleteVisible = false := by
  have hend : isSessionEnded (some s) = true := by
    simp [isSessionEnded, h]
  refine ⟨⟨by decide, by decide⟩, hend, ?_, ?_, ?_, ?_, ?_, ?_⟩ <;>
    simp [renderLiveMap, hend]

/-- C6 witness: the amended theorem evaluated on an inactive session viewed by
a user with route-manage rights. -/
theorem c6_ended_session_readonly_view_witness :
    (renderLiveMap (some { isActive := false }) true).routeDeleteVisible = false := by
  have h := c6_ended_session_readonly_view { isActive := false } true rfl
  exact h.2.2.2.2.2.2.2

/-! ### C8: GPS forwarding and watch re-creation on resume -/

/-- C8: while joined (the transport open), every GPS fix delivered by the
device location provider is forwarded as exactly one session:location message
carrying its latitude, longitude, accuracy and heading; and every
foreground-resume of an active page re-creates the location subscription:
the previous watch (when one exists) is cleared and a fresh watch id — one
never used before — is installed. -/
theorem c8_location_forwarding_and_resubscribe (pos : GeoPosition) (w : WatchState)
    (hfresh : ∀ id, w.watchId = some id → id < w.nextWatchId) :
    onPositionFix true pos =
      [ClientMessage.sessionLocation pos.latitude pos.longitude pos.accuracy pos.heading] ∧
    (onForegroundResume true w).watchId = some (clearCurrentWatch w).nextWatchId ∧
    (∀ id, w.watchId = some id →
      id ∈ (onForegroundResume true w).cleared ∧
      (onForegroundResume true w).watchId ≠ some id) := by
  refine ⟨rfl, rfl, fun id hid => ⟨?_, ?_⟩⟩
  · show id ∈ (handleLiveMapResume w).cleared
    unfold handleLiveMapResume clearCurrentWatch
    rw [hid]
    show id ∈ w.cleared ++ [id]
    simp
  · show (handleLiveMapResume w).watchId ≠ some id
    have hlt : id < w.nextWatchId := hfresh id hid
    unfold handleLiveMapResume clearCurrentWatch
    rw [hid]
    show some w.nextWatchId ≠ some id
    intro hcontra
    injection hcontra with he
    omega

/-- C8 witness: a fix forwarded while joined, and a resume that clears watch
id 5 and installs the fresh watch id 7. -/
theorem c8_location_forwarding_and_resubscribe_witness :
    onPositionFix true { latitude := 1, longitude := 2, accuracy := 3, heading := 4 } =
      [ClientMessage.sessionLocation 1 2 3 4] ∧
    (onForegroundResume true
      { watchId := some 5, nextWatchId := 7, cleared := [] }).watchId = some 7 := by
  have h := c8_location_forwarding_and_resubscribe
    { latitude := 1, longitude := 2, accuracy := 3, heading := 4 }
    { watchId := some 5, nextWatchId := 7, cleared := [] }
    (fun id hid => by injection hid with he; subst he; decide)
  exact ⟨h.1, h.2.1⟩

end SessionMaps
